import Mathlib

/-!
Shallow embedding of the `blackbird-cc` binding generator (`src/lib.rs`).

The program walks a clang AST of a C++ header and produces (1) a tree of
binding items rendered to a Rust source file and (2) a C++ "glue" file of
forwarding definitions for inline functions.  We model the clang facts the
code reads (entity kinds, type kinds, mangled names, display names,
accessibility, comments) as explicit data, Rust panics (`unwrap`, `panic!`,
out-of-bounds indexing) as an `Except` error channel, the `cfg!(unix)`
compile-time switch as a boolean parameter, and the thread-local RNG
(`rand::random::<u64>()`) as a function `Nat → Nat` consulted at an
explicit draw counter.
-/

set_option autoImplicit false

namespace Blackbird

/-- Clang type kinds distinguished by `Type::to_token_stream` in `src/lib.rs`
(lines 19-45); `Other` stands for every kind hitting the `_ => panic!` arm. -/
inductive TypeKind where
  | Pointer | Void | CharS | CharU | SChar | UChar
  | Short | UShort | Int | UInt | Long | ULong
  | LongLong | ULongLong | Float | Double
  | Other
  deriving Repr, DecidableEq

/-- The Rust type expressions the mapper can emit (the token streams built by
`quote!` in lines 20-44). -/
inductive RustTy where
  | constPtr (pointee : RustTy)
  | mutPtr (pointee : RustTy)
  | cVoid | cChar | cSChar | cUChar | cShort | cUShort
  | cInt | cUInt | cLong | cULong | cLongLong | cULongLong
  | cFloat | cDouble
  deriving Repr, DecidableEq

/-- Fatal failures: `unwrapFailed` models `Option::unwrap` on `None` and
out-of-bounds indexing; `invalidType s` models
`panic!("invalid type: {}", root.get_display_name())` at line 45. -/
inductive Err where
  | unwrapFailed
  | invalidType (displayName : String)
  deriving Repr, DecidableEq

/-- A clang type as read by the code: a pointer (carrying its pointee), a
non-pointer kind, or a sugared (typedef/alias) type whose canonical form is
recorded.  Each node carries its own const qualification and display name. -/
inductive CType where
  | ptr (constQ : Bool) (displayName : String) (pointee : CType)
  | scalar (kind : TypeKind) (constQ : Bool) (displayName : String)
  | sugar (constQ : Bool) (displayName : String) (underlying : CType)
  deriving Repr, DecidableEq

namespace CType

/-- `clang::Type::get_canonical_type`: strip all typedef/alias sugar. -/
def getCanonicalType : CType → CType
  | .sugar _ _ u => u.getCanonicalType
  | t => t

/-- `clang::Type::get_kind`. A sugared type reports a kind outside the set
the mapper dispatches on, hence `Other`. -/
def getKind : CType → TypeKind
  | .ptr .. => .Pointer
  | .scalar k .. => k
  | .sugar .. => .Other

/-- `clang::Type::get_pointee_type`. -/
def getPointeeType : CType → Option CType
  | .ptr _ _ p => some p
  | _ => none

/-- `clang::Type::is_const_qualified`. -/
def isConstQualified : CType → Bool
  | .ptr c _ _ => c
  | .scalar _ c _ => c
  | .sugar c _ _ => c

/-- `clang::Type::get_display_name`. -/
def getDisplayName : CType → String
  | .ptr _ d _ => d
  | .scalar _ _ d => d
  | .sugar _ d _ => d

/-- Helper for the non-pointer arms of the dispatch in
`Type::to_token_stream` (`src/lib.rs` lines 30-45): the supported scalar
kinds map to the `std::os::raw` aliases; `Pointer` is excluded by the caller;
any other kind panics naming the canonical type's display name
(`panic!("invalid type: {}", root.get_display_name())`). -/
def mapScalarKind (k : TypeKind) (displayName : String) : Except Err RustTy :=
  match k with
  | .Pointer => .error .unwrapFailed
  | .Void => .ok .cVoid
  | .CharS => .ok .cChar
  | .CharU => .ok .cChar
  | .SChar => .ok .cSChar
  | .UChar => .ok .cUChar
  | .Short => .ok .cShort
  | .UShort => .ok .cUShort
  | .Int => .ok .cInt
  | .UInt => .ok .cUInt
  | .Long => .ok .cLong
  | .ULong => .ok .cULong
  | .LongLong => .ok .cLongLong
  | .ULongLong => .ok .cULongLong
  | .Float => .ok .cFloat
  | .Double => .ok .cDouble
  | .Other => .error (.invalidType displayName)

/-- `impl ToTokenStream for Type` (`src/lib.rs` lines 15-48).  The source
first takes `root = self.get_canonical_type()` and dispatches on
`root.get_kind()`; here canonicalization is fused into the recursion (the
`sugar` arm), which is extensionally the same function — see
`toTokenStream_canonical` below.  A pointer recurses into the pointee and
chooses `*const`/`*mut` by the pointee's const qualification; a `scalar`
node whose recorded kind is `Pointer` models a pointer-kinded type with no
pointee, on which the source's `get_pointee_type().unwrap()` panics. -/
def toTokenStream : CType → Except Err RustTy
  | .sugar _ _ u => toTokenStream u
  | .ptr _ _ pointee =>
    match toTokenStream pointee with
    | .error e => .error e
    | .ok tokens =>
      .ok (if pointee.isConstQualified then .constPtr tokens else .mutPtr tokens)
  | .scalar k _ d => mapScalarKind k d

end CType

/-- The supported-set predicate in the spec's/claim's words: the canonical
kind is a pointer to a supported pointee, void, a character/integer kind,
float, or double (a pointer-kinded type lacking a pointee is unsupported). -/
def supportedType : CType → Bool
  | .sugar _ _ u => supportedType u
  | .ptr _ _ pointee => supportedType pointee
  | .scalar k _ _ =>
    match k with
    | .Pointer => false
    | .Other => false
    | _ => true

/-! ## The clang entity model -/

/-- `clang::Accessibility`. -/
inductive Accessibility where
  | Public | Protected | Private
  deriving Repr, DecidableEq

/-- A parameter entity, exposing exactly the facts the code reads from it:
`get_display_name()` and `get_type()`. -/
structure ArgParm where
  displayName? : Option String
  type? : Option CType
  deriving Repr, DecidableEq

/-- The entity kinds `State::process_entity` and the class-child loop
dispatch on; `Other` covers every kind falling into the `_` arms. -/
inductive EntityKind where
  | TranslationUnit | Namespace | FunctionDecl | ClassDecl
  | FieldDecl | Constructor | Destructor | Method
  | Other
  deriving Repr, DecidableEq

/-- A clang entity, exposing the facts the code reads: kind, `get_name`,
`get_comment`, `get_mangled_name`, `get_mangled_names`, `get_result_type`,
`get_arguments`, `get_accessibility`, `is_inline_function`,
`is_static_method`, `get_type` (used on field declarations), and
`get_children`. -/
inductive Entity where
  | mk (kind : EntityKind) (name? : Option String) (comment? : Option String)
      (mangledName? : Option String) (mangledNames? : Option (List String))
      (resultType? : Option CType) (args? : Option (List ArgParm))
      (accessibility? : Option Accessibility)
      (inlineFn : Bool) (staticMethod : Bool)
      (fieldType? : Option CType)
      (children : List Entity)

namespace Entity

def kind : Entity → EntityKind | .mk k _ _ _ _ _ _ _ _ _ _ _ => k
def name? : Entity → Option String | .mk _ n _ _ _ _ _ _ _ _ _ _ => n
def comment? : Entity → Option String | .mk _ _ c _ _ _ _ _ _ _ _ _ => c
def mangledName? : Entity → Option String | .mk _ _ _ m _ _ _ _ _ _ _ _ => m
def mangledNames? : Entity → Option (List String) | .mk _ _ _ _ ms _ _ _ _ _ _ _ => ms
def resultType? : Entity → Option CType | .mk _ _ _ _ _ r _ _ _ _ _ _ => r
def args? : Entity → Option (List ArgParm) | .mk _ _ _ _ _ _ a _ _ _ _ _ => a
def accessibility? : Entity → Option Accessibility | .mk _ _ _ _ _ _ _ a _ _ _ _ => a
def inlineFn : Entity → Bool | .mk _ _ _ _ _ _ _ _ i _ _ _ => i
def staticMethod : Entity → Bool | .mk _ _ _ _ _ _ _ _ _ s _ _ => s
def fieldType? : Entity → Option CType | .mk _ _ _ _ _ _ _ _ _ _ t _ => t
def children : Entity → List Entity | .mk _ _ _ _ _ _ _ _ _ _ _ cs => cs

end Entity

/-! ## The binding item model -/

/-- `struct Arg(Option<String>, TokenStream)` (`src/lib.rs` line 85). -/
structure Arg where
  name? : Option String
  ty : RustTy
  deriving Repr, DecidableEq

/-- `struct ItemFn` (`src/lib.rs` lines 100-106). -/
structure ItemFn where
  name : String
  symbol : String
  args : List Arg
  ret : RustTy
  comments : List String
  deriving Repr, DecidableEq

/-- `struct Field(bool, String, TokenStream)` (`src/lib.rs` line 128): the
boolean is the `pub` visibility marker rendered in front of the field. -/
structure Field where
  isPub : Bool
  name : String
  ty : RustTy
  deriving Repr, DecidableEq

/-- `struct Constructor` (`src/lib.rs` lines 144-149). -/
structure Constructor where
  name : String
  symbol : String
  args : List Arg
  comments : List String
  deriving Repr, DecidableEq

/-- `struct Destructor` (`src/lib.rs` lines 189-193). -/
structure Destructor where
  name : String
  symbol : String
  comments : List String
  deriving Repr, DecidableEq

/-- `struct Method` (`src/lib.rs` lines 220-227). -/
structure Method where
  className : String
  name : String
  symbol : String
  args : List Arg
  ret : RustTy
  comments : List String
  deriving Repr, DecidableEq

/-- `struct StaticMethod` (`src/lib.rs` lines 268-275). -/
structure StaticMethod where
  className : String
  name : String
  symbol : String
  args : List Arg
  ret : RustTy
  comments : List String
  deriving Repr, DecidableEq

/-- `struct ItemStruct` (`src/lib.rs` lines 306-314). -/
structure ItemStruct where
  name : String
  fields : List Field
  constructor : Option Constructor
  destructor : Option Destructor
  methods : List Method
  staticMethods : List StaticMethod
  comments : List String
  deriving Repr, DecidableEq

/-- `enum Item` (`src/lib.rs` lines 51-55), with `ItemMod` inlined into the
`mod` case to keep the nested recursion in one inductive. -/
inductive Item where
  | mod (name : String) (items : List Item) (comments : List String)
  | fn (f : ItemFn)
  | strukt (s : ItemStruct)

/-- `struct Context { ns: Vec<String> }` (`src/lib.rs` lines 360-362). -/
structure Context where
  ns : List String
  deriving Repr, DecidableEq

/-! ## Small helpers shared by the processing arms -/

/-- `format!("{:x}", n)`: lowercase hexadecimal rendering without leading
zeros (`Nat.toDigits 16` produces exactly Rust's `{:x}` digits). -/
def hexStr (n : Nat) : String :=
  (Nat.toDigits 16 n).asString

/-- `e.get_comment().map_or(Vec::new(), |x| x.split("\n")...)`: an absent
comment yields no lines; a present one is split at every newline. -/
def splitComment : Option String → List String
  | none => []
  | some s => s.splitOn "\n"

/-- The parameter lists of generated bindings (`src/lib.rs` lines 417-419,
453-455, 486-488, 497-499): each argument takes
`arg.get_display_name().unwrap_or(format!("a{}", i))` as its name and its
mapped type; `i` is the position of the argument (the `enumerate` index). -/
def buildArgs : Nat → List ArgParm → Except Err (List Arg)
  | _, [] => .ok []
  | i, a :: rest =>
    match a.type? with
    | none => .error .unwrapFailed
    | some t =>
      match t.toTokenStream with
      | .error er => .error er
      | .ok ty =>
        match buildArgs (i + 1) rest with
        | .error er => .error er
        | .ok rs => .ok ({ name? := some (a.displayName?.getD ("a" ++ toString i)), ty := ty } :: rs)

/-- The `args` list of the inline glue (`src/lib.rs` lines 403-405):
`format!("{} {}", arg.get_type().unwrap().get_display_name(),
arg.get_display_name().unwrap())` — note the display name is `unwrap`ped
here, with no positional fallback. -/
def glueArgStrs : List ArgParm → Except Err (List String)
  | [] => .ok []
  | a :: rest =>
    match a.type? with
    | none => .error .unwrapFailed
    | some t =>
      match a.displayName? with
      | none => .error .unwrapFailed
      | some d =>
        match glueArgStrs rest with
        | .error er => .error er
        | .ok rs => .ok ((t.getDisplayName ++ " " ++ d) :: rs)

/-- The `arg_names` list of the inline glue (`src/lib.rs` lines 406-408):
`arg.get_display_name().unwrap()` for each argument. -/
def glueArgNames : List ArgParm → Except Err (List String)
  | [] => .ok []
  | a :: rest =>
    match a.displayName? with
    | none => .error .unwrapFailed
    | some d =>
      match glueArgNames rest with
      | .error er => .error er
      | .ok rs => .ok (d :: rs)

/-- The glue fragment appended for one inline function (`src/lib.rs` lines
398-409): one `extern "C"` forwarding-function definition under the proxy
name `temp`, whose body calls the original function by its source name with
the forwarded argument names. -/
def inlineGlue (e : Entity) (temp : String) : Except Err String :=
  match e.resultType? with
  | none => .error .unwrapFailed
  | some rt =>
    match e.name? with
    | none => .error .unwrapFailed
    | some nm =>
      match e.args? with
      | none => .error .unwrapFailed
      | some args =>
        match glueArgStrs args with
        | .error er => .error er
        | .ok strs =>
          match glueArgNames args with
          | .error er => .error er
          | .ok names =>
            .ok ("extern \"C\" \x7b " ++ rt.getDisplayName ++ " " ++ temp ++ "(" ++
                 String.intercalate ", " strs ++ ") \x7b return " ++ nm ++ "(" ++
                 String.intercalate ", " names ++ "); \x7d \x7d")

/-- Building the `ItemFn` of a function declaration (`src/lib.rs` lines
412-420), with the link symbol already computed by the caller. -/
def buildFnItem (symbol : String) (e : Entity) : Except Err ItemFn :=
  match e.name? with
  | none => .error .unwrapFailed
  | some nm =>
    match e.resultType? with
    | none => .error .unwrapFailed
    | some rt =>
      match rt.toTokenStream with
      | .error er => .error er
      | .ok ret =>
        match e.args? with
        | none => .error .unwrapFailed
        | some args =>
          match buildArgs 0 args with
          | .error er => .error er
          | .ok as =>
            .ok { name := nm, symbol := symbol, args := as, ret := ret,
                  comments := splitComment e.comment? }

/-- The `FieldDecl` arm of the class-child loop (`src/lib.rs` lines
438-441): visibility is `accessibility == Public`, the name and type come
from the child. -/
def buildField (child : Entity) : Except Err Field :=
  match child.accessibility? with
  | none => .error .unwrapFailed
  | some acc =>
    match child.name? with
    | none => .error .unwrapFailed
    | some nm =>
      match child.fieldType? with
      | none => .error .unwrapFailed
      | some t =>
        match t.toTokenStream with
        | .error er => .error er
        | .ok ty => .ok { isPub := acc = Accessibility.Public, name := nm, ty := ty }

/-- The `Constructor` arm of the class-child loop (`src/lib.rs` lines
443-458): platform-stripped mangled symbol, then name, argument list (with
positional fallback) and comments. -/
def buildConstructor (unix : Bool) (child : Entity) : Except Err Constructor :=
  match child.mangledName? with
  | none => .error .unwrapFailed
  | some m =>
    let symbol := if unix then m.drop 1 else m
    match child.name? with
    | none => .error .unwrapFailed
    | some nm =>
      match child.args? with
      | none => .error .unwrapFailed
      | some args =>
        match buildArgs 0 args with
        | .error er => .error er
        | .ok as =>
          .ok { name := nm, symbol := symbol, args := as,
                comments := splitComment child.comment? }

/-- The `Destructor` arm of the class-child loop (`src/lib.rs` lines
460-472): the first of `get_mangled_names()` (indexing `[0]` panics when the
list is empty), platform-stripped; the item is named after the class. -/
def buildDestructor (unix : Bool) (className : String) (child : Entity) :
    Except Err Destructor :=
  match child.mangledNames? with
  | none => .error .unwrapFailed
  | some ms =>
    match ms with
    | [] => .error .unwrapFailed
    | m :: _ =>
      let symbol := if unix then m.drop 1 else m
      .ok { name := className, symbol := symbol, comments := splitComment child.comment? }

/-- The non-static branch of the `Method` arm (`src/lib.rs` lines 474-479
and 492-503). -/
def buildMethod (unix : Bool) (className : String) (child : Entity) :
    Except Err Method :=
  match child.mangledName? with
  | none => .error .unwrapFailed
  | some m =>
    let symbol := if unix then m.drop 1 else m
    match child.name? with
    | none => .error .unwrapFailed
    | some nm =>
      match child.args? with
      | none => .error .unwrapFailed
      | some args =>
        match buildArgs 0 args with
        | .error er => .error er
        | .ok as =>
          match child.resultType? with
          | none => .error .unwrapFailed
          | some rt =>
            match rt.toTokenStream with
            | .error er => .error er
            | .ok ret =>
              .ok { className := className, name := nm, symbol := symbol, args := as,
                    ret := ret, comments := splitComment child.comment? }

/-- The static branch of the `Method` arm (`src/lib.rs` lines 474-491). -/
def buildStaticMethod (unix : Bool) (className : String) (child : Entity) :
    Except Err StaticMethod :=
  match child.mangledName? with
  | none => .error .unwrapFailed
  | some m =>
    let symbol := if unix then m.drop 1 else m
    match child.name? with
    | none => .error .unwrapFailed
    | some nm =>
      match child.args? with
      | none => .error .unwrapFailed
      | some args =>
        match buildArgs 0 args with
        | .error er => .error er
        | .ok as =>
          match child.resultType? with
          | none => .error .unwrapFailed
          | some rt =>
            match rt.toTokenStream with
            | .error er => .error er
            | .ok ret =>
              .ok { className := className, name := nm, symbol := symbol, args := as,
                    ret := ret, comments := splitComment child.comment? }

/-- One iteration of the class-child loop (`src/lib.rs` lines 434-508):
fields and (static) methods are appended, a constructor or destructor
overwrites the previous one, other child kinds are ignored. -/
def processClassChild (unix : Bool) (className : String) (s : ItemStruct)
    (child : Entity) : Except Err ItemStruct :=
  match child.kind with
  | .FieldDecl =>
    match buildField child with
    | .error er => .error er
    | .ok f => .ok { s with fields := s.fields ++ [f] }
  | .Constructor =>
    match buildConstructor unix child with
    | .error er => .error er
    | .ok ctor => .ok { s with constructor := some ctor }
  | .Destructor =>
    match buildDestructor unix className child with
    | .error er => .error er
    | .ok dtor => .ok { s with destructor := some dtor }
  | .Method =>
    if child.staticMethod then
      match buildStaticMethod unix className child with
      | .error er => .error er
      | .ok sm => .ok { s with staticMethods := s.staticMethods ++ [sm] }
    else
      match buildMethod unix className child with
      | .error er => .error er
      | .ok mth => .ok { s with methods := s.methods ++ [mth] }
  | _ => .ok s

/-- The whole class-child loop, folded left over the children. -/
def processClassChildren (unix : Bool) (className : String) :
    ItemStruct → List Entity → Except Err ItemStruct
  | s, [] => .ok s
  | s, child :: rest =>
    match processClassChild unix className s child with
    | .error er => .error er
    | .ok s2 => processClassChildren unix className s2 rest

/-- Error-propagating map, used to state which items a traversal produces
(`mapExcept buildField fieldChildren` etc.). -/
def mapExcept {α β : Type} (f : α → Except Err β) : List α → Except Err (List β)
  | [] => .ok []
  | a :: rest =>
    match f a with
    | .error er => .error er
    | .ok b =>
      match mapExcept f rest with
      | .error er => .error er
      | .ok bs => .ok (b :: bs)

/-! ## The entity processor

`State::process_entity` / `State::process_children` (`src/lib.rs` lines
364-516).  The `State { glue }` accumulator is threaded as the `g`
argument; the thread-local RNG is the pair of `rng` (the stream) and `k`
(how many `random::<u64>()` draws happened so far). -/

mutual

def processEntity (unix : Bool) (rng : Nat → Nat) (c : Context) (g : String)
    (k : Nat) : Entity → Except Err (List Item × String × Nat)
  | e@(.mk kind name? comment? mangled? _ _ _ _ inl _ _ children) =>
    match kind with
    | .TranslationUnit => processChildren unix rng c g k children
    | .Namespace =>
      match name? with
      | none => .error .unwrapFailed
      | some nm =>
        match processChildren unix rng { ns := c.ns ++ [nm] } g k children with
        | .error er => .error er
        | .ok (items, g2, k2) => .ok ([.mod nm items (splitComment comment?)], g2, k2)
    | .FunctionDecl =>
      match mangled? with
      | none => .error .unwrapFailed
      | some m =>
        let symbol := if unix then m.drop 1 else m
        if inl then
          let temp := "_" ++ hexStr (rng k % 2 ^ 64)
          match inlineGlue e temp with
          | .error er => .error er
          | .ok frag =>
            match buildFnItem temp e with
            | .error er => .error er
            | .ok f => .ok ([.fn f], g ++ frag, k + 1)
        else
          match buildFnItem symbol e with
          | .error er => .error er
          | .ok f => .ok ([.fn f], g, k)
    | .ClassDecl =>
      match name? with
      | none => .error .unwrapFailed
      | some nm =>
        let s0 : ItemStruct :=
          { name := nm, comments := splitComment comment?, fields := [],
            methods := [], staticMethods := [], constructor := none, destructor := none }
        match processClassChildren unix nm s0 children with
        | .error er => .error er
        | .ok s => .ok ([.strukt s], g, k)
    | _ => .ok ([], g, k)

def processChildren (unix : Bool) (rng : Nat → Nat) (c : Context) (g : String)
    (k : Nat) : List Entity → Except Err (List Item × String × Nat)
  | [] => .ok ([], g, k)
  | x :: xs =>
    match processEntity unix rng c g k x with
    | .error er => .error er
    | .ok (items, g2, k2) =>
      match processChildren unix rng c g2 k2 xs with
      | .error er => .error er
      | .ok (more, g3, k3) => .ok (items ++ more, g3, k3)

end

/-! ## The binding emitter

The `ToTokens` implementations (`src/lib.rs` lines 57-352) rendered to
source text.  Exact `TokenStream` whitespace is not reproduced (no claim
depends on it); the token content and, importantly, the order in which the
`format_ident!("_{:x}", random::<u64>())` trampoline identifiers are drawn
are modelled faithfully: in `ItemStruct::to_tokens` the constructor and
destructor are rendered eagerly (lines 325-335) before the lazy
method/static-method iterators are consumed inside `quote!`. -/

def renderRustTy : RustTy → String
  | .constPtr p => "*const " ++ renderRustTy p
  | .mutPtr p => "*mut " ++ renderRustTy p
  | .cVoid => "std::os::raw::c_void"
  | .cChar => "std::os::raw::c_char"
  | .cSChar => "std::os::raw::c_schar"
  | .cUChar => "std::os::raw::c_uchar"
  | .cShort => "std::os::raw::c_short"
  | .cUShort => "std::os::raw::c_ushort"
  | .cInt => "std::os::raw::c_int"
  | .cUInt => "std::os::raw::c_uint"
  | .cLong => "std::os::raw::c_long"
  | .cULong => "std::os::raw::c_ulong"
  | .cLongLong => "std::os::raw::c_longlong"
  | .cULongLong => "std::os::raw::c_ulonglong"
  | .cFloat => "std::os::raw::c_float"
  | .cDouble => "std::os::raw::c_double"

def renderComments (cs : List String) : String :=
  String.intercalate " " cs

/-- `impl ToTokens for Arg` (`src/lib.rs` lines 87-97). -/
def renderArg (a : Arg) : String :=
  match a.name? with
  | some n => n ++ ": " ++ renderRustTy a.ty
  | none => renderRustTy a.ty

/-- `x.0.as_ref().unwrap()` on an argument's name (used for `arg_names` in
the constructor/method/static-method rendering). -/
def argNamesOf : List Arg → Except Err (List String)
  | [] => .ok []
  | a :: rest =>
    match a.name? with
    | none => .error .unwrapFailed
    | some n =>
      match argNamesOf rest with
      | .error er => .error er
      | .ok ns => .ok (n :: ns)

/-- `impl ToTokens for ItemFn` (`src/lib.rs` lines 108-125). -/
def renderItemFn (f : ItemFn) : String :=
  "extern \x7b " ++ renderComments f.comments ++
  " #[link_name=\"" ++ f.symbol ++ "\"] pub fn " ++ f.name ++ "(" ++
  String.intercalate ", " (f.args.map renderArg) ++ ") -> " ++
  renderRustTy f.ret ++ "; \x7d"

/-- `impl ToTokens for Field` (`src/lib.rs` lines 130-141). -/
def renderField (f : Field) : String :=
  (if f.isPub then "pub " else "") ++ f.name ++ ": " ++ renderRustTy f.ty

/-- `impl ToTokens for Constructor` (`src/lib.rs` lines 151-186); draws one
random trampoline identifier. -/
def renderConstructor (rng : Nat → Nat) (k : Nat) (ctor : Constructor) :
    Except Err (String × Nat) :=
  let id := "_" ++ hexStr (rng k % 2 ^ 64)
  let rawArgs := ("this: *mut " ++ ctor.name) :: ctor.args.map renderArg
  match argNamesOf ctor.args with
  | .error er => .error er
  | .ok ns =>
    let argNames := ("&mut this as *mut " ++ ctor.name) :: ns
    .ok ("extern \x7b #[link_name=\"" ++ ctor.symbol ++ "\"] fn " ++ id ++ "(" ++
         String.intercalate ", " rawArgs ++ "); \x7d impl " ++ ctor.name ++ " \x7b " ++
         renderComments ctor.comments ++ " pub unsafe fn new(" ++
         String.intercalate ", " (ctor.args.map renderArg) ++ ") -> " ++ ctor.name ++
         " \x7b let mut this = " ++ ctor.name ++ "::default(); " ++ id ++ "(" ++
         String.intercalate ", " argNames ++ "); this \x7d \x7d", k + 1)

/-- `impl ToTokens for Destructor` (`src/lib.rs` lines 195-217); draws one
random trampoline identifier. -/
def renderDestructor (rng : Nat → Nat) (k : Nat) (dtor : Destructor) : String × Nat :=
  let id := "_" ++ hexStr (rng k % 2 ^ 64)
  ("extern \x7b #[link_name=\"" ++ dtor.symbol ++ "\"] fn " ++ id ++ "(_: *mut " ++
   dtor.name ++ "); \x7d impl Drop for " ++ dtor.name ++ " \x7b " ++
   renderComments dtor.comments ++ " fn drop(&mut self) \x7b unsafe \x7b " ++ id ++
   "(self as *mut " ++ dtor.name ++ "); \x7d \x7d \x7d", k + 1)

/-- `impl ToTokens for Method` (`src/lib.rs` lines 229-265); draws one
random trampoline identifier. -/
def renderMethod (rng : Nat → Nat) (k : Nat) (m : Method) : Except Err (String × Nat) :=
  let id := "_" ++ hexStr (rng k % 2 ^ 64)
  let args := "&mut self" :: m.args.map renderArg
  let rawArgs := ("this: *mut " ++ m.className) :: m.args.map renderArg
  match argNamesOf m.args with
  | .error er => .error er
  | .ok ns =>
    let argNames := ("self as *mut " ++ m.className) :: ns
    .ok ("extern \x7b #[link_name=\"" ++ m.symbol ++ "\"] fn " ++ id ++ "(" ++
         String.intercalate ", " rawArgs ++ ") -> " ++ renderRustTy m.ret ++
         "; \x7d impl " ++ m.className ++ " \x7b " ++ renderComments m.comments ++
         " pub unsafe fn " ++ m.name ++ "(" ++ String.intercalate ", " args ++ ") -> " ++
         renderRustTy m.ret ++ " \x7b " ++ id ++ "(" ++
         String.intercalate ", " argNames ++ ") \x7d \x7d", k + 1)

/-- `impl ToTokens for StaticMethod` (`src/lib.rs` lines 277-303); draws one
random trampoline identifier. -/
def renderStaticMethod (rng : Nat → Nat) (k : Nat) (m : StaticMethod) :
    Except Err (String × Nat) :=
  let id := "_" ++ hexStr (rng k % 2 ^ 64)
  match argNamesOf m.args with
  | .error er => .error er
  | .ok ns =>
    .ok ("extern \x7b #[link_name=\"" ++ m.symbol ++ "\"] fn " ++ id ++ "(" ++
         String.intercalate ", " (m.args.map renderArg) ++ ") -> " ++ renderRustTy m.ret ++
         "; \x7d impl " ++ m.className ++ " \x7b " ++ renderComments m.comments ++
         " pub unsafe fn " ++ m.name ++ "(" ++
         String.intercalate ", " (m.args.map renderArg) ++ ") -> " ++ renderRustTy m.ret ++
         " \x7b " ++ id ++ "(" ++ String.intercalate ", " ns ++ ") \x7d \x7d", k + 1)

def renderMethods (rng : Nat → Nat) : Nat → List Method → Except Err (List String × Nat)
  | k, [] => .ok ([], k)
  | k, m :: rest =>
    match renderMethod rng k m with
    | .error er => .error er
    | .ok (s, k2) =>
      match renderMethods rng k2 rest with
      | .error er => .error er
      | .ok (ss, k3) => .ok (s :: ss, k3)

def renderStaticMethods (rng : Nat → Nat) :
    Nat → List StaticMethod → Except Err (List String × Nat)
  | k, [] => .ok ([], k)
  | k, m :: rest =>
    match renderStaticMethod rng k m with
    | .error er => .error er
    | .ok (s, k2) =>
      match renderStaticMethods rng k2 rest with
      | .error er => .error er
      | .ok (ss, k3) => .ok (s :: ss, k3)

/-- `impl ToTokens for ItemStruct` (`src/lib.rs` lines 316-352).  Random
draws happen in the source's evaluation order: constructor, destructor, then
each method, then each static method. -/
def renderItemStruct (rng : Nat → Nat) (k : Nat) (s : ItemStruct) :
    Except Err (String × Nat) :=
  match (match s.constructor with
         | some ctor => renderConstructor rng k ctor
         | none => .ok ("", k)) with
  | .error er => .error er
  | .ok (ctorText, k2) =>
    let (dtorText, k3) :=
      match s.destructor with
      | some dtor => renderDestructor rng k2 dtor
      | none => ("", k2)
    match renderMethods rng k3 s.methods with
    | .error er => .error er
    | .ok (methodTexts, k4) =>
      match renderStaticMethods rng k4 s.staticMethods with
      | .error er => .error er
      | .ok (staticTexts, k5) =>
        .ok (renderComments s.comments ++ " #[repr(C)] #[derive(Default, Debug)] pub struct " ++
             s.name ++ " \x7b " ++ String.intercalate ", " (s.fields.map renderField) ++
             " \x7d " ++ ctorText ++ " " ++ dtorText ++ " " ++
             String.intercalate " " methodTexts ++ " " ++
             String.intercalate " " staticTexts, k5)

mutual

/-- `impl ToTokens for Item` / `ItemMod` (`src/lib.rs` lines 57-82). -/
def renderItem (rng : Nat → Nat) (k : Nat) : Item → Except Err (String × Nat)
  | .mod name items comments =>
    match renderItems rng k items with
    | .error er => .error er
    | .ok (body, k2) =>
      .ok (renderComments comments ++ " mod " ++ name ++ " \x7b " ++ body ++ " \x7d", k2)
  | .fn f => .ok (renderItemFn f, k)
  | .strukt s => renderItemStruct rng k s

def renderItems (rng : Nat → Nat) (k : Nat) : List Item → Except Err (String × Nat)
  | [] => .ok ("", k)
  | x :: xs =>
    match renderItem rng k x with
    | .error er => .error er
    | .ok (s, k2) =>
      match renderItems rng k2 xs with
      | .error er => .error er
      | .ok (rest, k3) => .ok (s ++ " " ++ rest, k3)

end

/-! ## The driver -/

/-- The file-system and toolchain effects of `generate`
(`src/lib.rs` lines 518-555). -/
inductive FsOp where
  | create (name : String)
  | write (name : String) (content : String)
  | compileGlue
  deriving Repr, DecidableEq

/-- `pub fn generate` (`src/lib.rs` lines 518-555): parse (the parsed root
entity is taken as input here), run the entity processor from an empty
context with an empty glue accumulator, render every item, and only then
create and write `bindings.rs` and `glue.cc` (the latter starting with an
`#include` of the original header path, backslashes doubled) and compile the
glue.  The result is the list of file-system/toolchain operations performed
together with the fatal error, if any: a failure in processing or rendering
aborts the run before any operation is performed. -/
def generate (unix : Bool) (rng : Nat → Nat) (outDir : String) (path : String)
    (root : Entity) : List FsOp × Option Err :=
  match processEntity unix rng { ns := [] } "" 0 root with
  | .error er => ([], some er)
  | .ok (items, glue, k) =>
    match renderItems rng k items with
    | .error er => ([], some er)
    | .ok (text, _) =>
      ([.create (outDir ++ "/bindings.rs"),
        .write (outDir ++ "/bindings.rs") text,
        .create (outDir ++ "/glue.cc"),
        .write (outDir ++ "/glue.cc") ("#include \"" ++ (path.replace "\\" "\\\\") ++ "\"\n"),
        .write (outDir ++ "/glue.cc") glue,
        .compileGlue], none)

/-! # Theorems -/

/-! ## Type mapper lemmas -/

theorem toTokenStream_canonical (t : CType) :
    t.toTokenStream = t.getCanonicalType.toTokenStream := by
  induction t with
  | ptr c d p _ => rfl
  | scalar k c d => rfl
  | sugar c d u ih => rw [CType.getCanonicalType, ← ih]; rfl

theorem getCanonicalType_not_sugar (t : CType) (c : Bool) (d : String) (u : CType) :
    t.getCanonicalType ≠ .sugar c d u := by
  induction t with
  | ptr c2 d2 p _ => simp [CType.getCanonicalType]
  | scalar k c2 d2 => simp [CType.getCanonicalType]
  | sugar c2 d2 u2 ih => simpa [CType.getCanonicalType] using ih

theorem toTokenStream_isOk_eq_supported (t : CType) :
    t.toTokenStream.isOk = supportedType t := by
  induction t with
  | ptr c d p ih =>
    cases hp : p.toTokenStream with
    | error er =>
      have : supportedType p = false := by rw [← ih, hp]; rfl
      simp [CType.toTokenStream, supportedType, hp, this, Except.isOk, Except.toBool]
    | ok tk =>
      have : supportedType p = true := by rw [← ih, hp]; rfl
      simp [CType.toTokenStream, supportedType, hp, this, Except.isOk, Except.toBool]
  | scalar k c d =>
    cases k <;> rfl
  | sugar c d u ih =>
    simpa [CType.toTokenStream, supportedType] using ih

theorem unsupported_kind_invalidType (t : CType)
    (h : t.getCanonicalType.getKind = .Other) :
    t.toTokenStream = .error (.invalidType t.getCanonicalType.getDisplayName) := by
  rw [toTokenStream_canonical]
  cases hc : t.getCanonicalType with
  | ptr c2 d2 p => rw [hc] at h; simp [CType.getKind] at h
  | scalar k c2 d2 =>
    rw [hc] at h
    simp [CType.getKind] at h
    subst h
    rfl
  | sugar c2 d2 u => exact absurd hc (getCanonicalType_not_sugar t c2 d2 u)

/-- C6: the Type Mapper succeeds exactly on the supported canonical set
(pointer to a supported pointee, void, character/integer kinds, float,
double); on any other canonical kind it fails with an error naming the
offending type's display name; and its result depends only on the canonical
type, so it is deterministic over canonical types. -/
theorem type_mapper_supported_set_and_determinism :
    (∀ t : CType, t.toTokenStream.isOk = supportedType t) ∧
    (∀ t : CType, t.getCanonicalType.getKind = .Other →
        t.toTokenStream = .error (.invalidType t.getCanonicalType.getDisplayName)) ∧
    (∀ t1 t2 : CType, t1.getCanonicalType = t2.getCanonicalType →
        t1.toTokenStream = t2.toTokenStream) := by
  refine ⟨toTokenStream_isOk_eq_supported, unsupported_kind_invalidType, ?_⟩
  intro t1 t2 h
  rw [toTokenStream_canonical, h, ← toTokenStream_canonical]

/-- Witness for C6: the three conjuncts applied at concrete types — a
supported `int`, an unsupported class-like kind named `Foo`, and two
distinct spellings (`int` and a typedef of it) of the same canonical type. -/
theorem type_mapper_supported_set_and_determinism_witness :
    ((CType.scalar .Int false "int").toTokenStream.isOk
        = supportedType (CType.scalar .Int false "int")) ∧
    (CType.scalar .Other false "Foo").toTokenStream = .error (.invalidType "Foo") ∧
    (CType.sugar false "myint" (CType.scalar .Int false "int")).toTokenStream
        = (CType.scalar .Int false "int").toTokenStream := by
  refine ⟨type_mapper_supported_set_and_determinism.1 _, ?_, ?_⟩
  · exact type_mapper_supported_set_and_determinism.2.1 _ rfl
  · exact type_mapper_supported_set_and_determinism.2.2 _ _ rfl

/-- C2: a type whose canonical kind is Pointer maps by recursively mapping
the pointee, wrapping the result in `*const` when the pointee is
const-qualified and in `*mut` otherwise. -/
theorem pointer_type_maps_via_pointee_constness (t p : CType) (cq : Bool)
    (dn : String) (tk : RustTy) (hc : t.getCanonicalType = .ptr cq dn p)
    (hp : p.toTokenStream = .ok tk) :
    t.toTokenStream = .ok (if p.isConstQualified then .constPtr tk else .mutPtr tk) := by
  rw [toTokenStream_canonical, hc]
  simp [CType.toTokenStream, hp]

/-- Witness for C2: pointer-to-const-int maps to `*const c_int` and
pointer-to-(non-const)-int maps to `*mut c_int`. -/
theorem pointer_type_maps_via_pointee_constness_witness :
    (CType.ptr false "const int *" (CType.scalar .Int true "const int")).toTokenStream
        = .ok (.constPtr .cInt) ∧
    (CType.ptr false "int *" (CType.scalar .Int false "int")).toTokenStream
        = .ok (.mutPtr .cInt) := by
  constructor
  · have h := pointer_type_maps_via_pointee_constness
      (CType.ptr false "const int *" (CType.scalar .Int true "const int"))
      (CType.scalar .Int true "const int") false "const int *" .cInt rfl rfl
    simpa [CType.isConstQualified] using h
  · have h := pointer_type_maps_via_pointee_constness
      (CType.ptr false "int *" (CType.scalar .Int false "int"))
      (CType.scalar .Int false "int") false "int *" .cInt rfl rfl
    simpa [CType.isConstQualified] using h

/-! ## Context irrelevance -/

mutual

theorem processEntity_ctx (unix : Bool) (rng : Nat → Nat) (c1 c2 : Context)
    (g : String) (k : Nat) (e : Entity) :
    processEntity unix rng c1 g k e = processEntity unix rng c2 g k e := by
  cases e with
  | mk kind n cm mg mgs rt ar ac inl st ft children =>
    cases kind with
    | TranslationUnit =>
      simpa [processEntity] using processChildren_ctx unix rng c1 c2 g k children
    | Namespace =>
      cases n with
      | none => rfl
      | some nm =>
        simp only [processEntity]
        rw [processChildren_ctx unix rng { ns := c1.ns ++ [nm] } { ns := c2.ns ++ [nm] }
              g k children]
    | FunctionDecl => rfl
    | ClassDecl => rfl
    | FieldDecl => rfl
    | Constructor => rfl
    | Destructor => rfl
    | Method => rfl
    | Other => rfl

theorem processChildren_ctx (unix : Bool) (rng : Nat → Nat) (c1 c2 : Context)
    (g : String) (k : Nat) (l : List Entity) :
    processChildren unix rng c1 g k l = processChildren unix rng c2 g k l := by
  cases l with
  | nil => rfl
  | cons x xs =>
    simp only [processChildren]
    rw [processEntity_ctx unix rng c1 c2 g k x]
    cases hx : processEntity unix rng c2 g k x with
    | error er => rfl
    | ok r =>
      obtain ⟨items, g2, k2⟩ := r
      simp only []
      rw [processChildren_ctx unix rng c1 c2 g2 k2 xs]

end

/-- C10: the traversal's entire result — the binding items, the glue text,
and the number of random draws — is the same for any two contexts passed to
`processEntity`; the namespace path is copied and extended but never read. -/
theorem traversal_ignores_context (unix : Bool) (rng : Nat → Nat)
    (c1 c2 : Context) (g : String) (k : Nat) (e : Entity) :
    processEntity unix rng c1 g k e = processEntity unix rng c2 g k e :=
  processEntity_ctx unix rng c1 c2 g k e

/-! ## Driver ordering -/

/-- C7: when processing any declaration fails fatally, `generate` performs
no file-system or toolchain operation at all — in particular neither output
file is created or written. -/
theorem failed_processing_writes_no_files (unix : Bool) (rng : Nat → Nat)
    (outDir path : String) (root : Entity) (er : Err)
    (h : processEntity unix rng { ns := [] } "" 0 root = .error er) :
    generate unix rng outDir path root = ([], some er) := by
  simp [generate, h]

/-- Witness for C7: a translation unit with one class whose only field has
an unsupported (class-by-value) type makes the run fail with
`invalidType "Foo"` and produce no file operation. -/
theorem failed_processing_writes_no_files_witness :
    processEntity true (fun _ => 0) { ns := [] } "" 0
        (.mk .TranslationUnit none none none none none none none false false none
          [.mk .ClassDecl (some "C") none none none none none none false false none
            [.mk .FieldDecl (some "x") none none none none none (some .Public) false false
              (some (CType.scalar .Other false "Foo")) []]])
      = .error (.invalidType "Foo") ∧
    generate true (fun _ => 0) "out" "hdr.hpp"
        (.mk .TranslationUnit none none none none none none none false false none
          [.mk .ClassDecl (some "C") none none none none none none false false none
            [.mk .FieldDecl (some "x") none none none none none (some .Public) false false
              (some (CType.scalar .Other false "Foo")) []]])
      = ([], some (.invalidType "Foo")) := by
  constructor
  · rfl
  · exact failed_processing_writes_no_files true (fun _ => 0) "out" "hdr.hpp" _ _ rfl

/-! ## Inline functions (C1) -/

/-- C1: processing an inline free function yields exactly one `Function`
binding item whose link symbol is the freshly drawn proxy identifier
`"_" ++ hex(random u64)`, and appends to the glue accumulator exactly one
`extern "C"` forwarding-function definition under that same proxy name whose
body `return`s a call of the original function by its source name with the
forwarded argument names. -/
theorem inline_function_symbol_matches_glue_proxy (unix : Bool) (rng : Nat → Nat)
    (c : Context) (g : String) (k : Nat) (nm : String) (cm : Option String)
    (mg : String) (mgs : Option (List String)) (rt : CType) (args : List ArgParm)
    (ac : Option Accessibility) (st : Bool) (ft : Option CType) (children : List Entity)
    (strs names : List String) (ret : RustTy) (as : List Arg)
    (hstrs : glueArgStrs args = .ok strs)
    (hnames : glueArgNames args = .ok names)
    (hret : rt.toTokenStream = .ok ret)
    (hargs : buildArgs 0 args = .ok as) :
    processEntity unix rng c g k
        (.mk .FunctionDecl (some nm) cm (some mg) mgs (some rt) (some args)
          ac true st ft children)
      = .ok ([.fn { name := nm, symbol := "_" ++ hexStr (rng k % 2 ^ 64), args := as,
                    ret := ret, comments := splitComment cm }],
             g ++ ("extern \"C\" \x7b " ++ rt.getDisplayName ++ " "
                   ++ ("_" ++ hexStr (rng k % 2 ^ 64)) ++ "("
                   ++ String.intercalate ", " strs ++ ") \x7b return " ++ nm ++ "("
                   ++ String.intercalate ", " names ++ "); \x7d \x7d"),
             k + 1) := by
  simp [processEntity, inlineGlue, buildFnItem, Entity.resultType?, Entity.name?,
        Entity.args?, Entity.comment?, hstrs, hnames, hret, hargs]

/-- Witness for C1: a concrete inline `int f(int x)` with RNG drawing
`0xdeadbeef`; the binding's symbol and the glue's proxy are both
`_deadbeef`. -/
theorem inline_function_symbol_matches_glue_proxy_witness :
    processEntity true (fun _ => 3735928559) { ns := [] } "" 0
        (.mk .FunctionDecl (some "f") none (some "_Z1fi") none
          (some (CType.scalar .Int false "int"))
          (some [{ displayName? := some "x", type? := some (CType.scalar .Int false "int") }])
          none true false none [])
      = .ok ([.fn { name := "f", symbol := "_" ++ hexStr (3735928559 % 2 ^ 64),
                    args := [{ name? := some "x", ty := .cInt }],
                    ret := .cInt, comments := [] }],
             "" ++ ("extern \"C\" \x7b " ++ "int" ++ " "
                    ++ ("_" ++ hexStr (3735928559 % 2 ^ 64)) ++ "("
                    ++ String.intercalate ", " ["int x"] ++ ") \x7b return " ++ "f" ++ "("
                    ++ String.intercalate ", " ["x"] ++ "); \x7d \x7d"),
             0 + 1) := by
  exact inline_function_symbol_matches_glue_proxy true (fun _ => 3735928559)
    { ns := [] } "" 0 "f" none "_Z1fi" none (CType.scalar .Int false "int")
    [{ displayName? := some "x", type? := some (CType.scalar .Int false "int") }]
    none false none [] ["int x"] ["x"] .cInt [{ name? := some "x", ty := .cInt }]
    rfl rfl rfl rfl

/-! ## Nested namespaces (C9) -/

/-- C9: a header shaped `namespace A { namespace B { <one free function> } }`
processes to exactly one `Module` item named `A` containing exactly one
`Module` item named `B` containing exactly one `Function` item — no
flattening, no duplication — and each module carries its own comment split
into one line per source newline (`splitComment`). -/
theorem nested_namespaces_nest_modules (unix : Bool) (rng : Nat → Nat)
    (c : Context) (g : String) (k : Nat) (a b : String) (cA cB : Option String)
    (e3 : Entity) (f : ItemFn) (g2 : String) (k2 : Nat)
    (hkind : e3.kind = .FunctionDecl)
    (hf : processEntity unix rng { ns := (c.ns ++ [a]) ++ [b] } g k e3
            = .ok ([.fn f], g2, k2)) :
    processEntity unix rng c g k
        (.mk .Namespace (some a) cA none none none none none false false none
          [.mk .Namespace (some b) cB none none none none none false false none [e3]])
      = .ok ([.mod a [.mod b [.fn f] (splitComment cB)] (splitComment cA)], g2, k2)
      ∧ ∀ s : String, splitComment (some s) = s.splitOn "\n" := by
  refine ⟨?_, fun s => rfl⟩
  have hf2 : processEntity unix rng { ns := c.ns ++ [a, b] } g k e3
      = .ok ([.fn f], g2, k2) := by simpa using hf
  simp [processEntity, processChildren, hf2]

/-- Witness for C9: namespaces `A`/`B` (with documentation comments) around
a concrete non-inline `int f(int x)`. -/
theorem nested_namespaces_nest_modules_witness :
    processEntity true (fun _ => 0) { ns := [] } "" 0
        (.mk .Namespace (some "A") (some "line one\nline two") none none none none
            none false false none
          [.mk .Namespace (some "B") (some "inner") none none none none none
              false false none
            [.mk .FunctionDecl (some "f") none (some "_Z1fi") none
              (some (CType.scalar .Int false "int"))
              (some [{ displayName? := some "x",
                       type? := some (CType.scalar .Int false "int") }])
              none false false none []]])
      = .ok ([.mod "A"
                [.mod "B"
                  [.fn { name := "f", symbol := "Z1fi",
                         args := [{ name? := some "x", ty := .cInt }],
                         ret := .cInt, comments := [] }]
                  (splitComment (some "inner"))]
                (splitComment (some "line one\nline two"))], "", 0)
      ∧ ∀ s : String, splitComment (some s) = s.splitOn "\n" := by
  exact nested_namespaces_nest_modules true (fun _ => 0) { ns := [] } "" 0 "A" "B"
    (some "line one\nline two") (some "inner")
    (.mk .FunctionDecl (some "f") none (some "_Z1fi") none
      (some (CType.scalar .Int false "int"))
      (some [{ displayName? := some "x", type? := some (CType.scalar .Int false "int") }])
      none false false none [])
    { name := "f", symbol := "Z1fi", args := [{ name? := some "x", ty := .cInt }],
      ret := .cInt, comments := [] }
    "" 0 rfl rfl

/-! ## Link symbols (C5) -/

theorem buildFnItem_symbol {sym : String} {e : Entity} {f : ItemFn}
    (h : buildFnItem sym e = .ok f) : f.symbol = sym := by
  unfold buildFnItem at h
  repeat' split at h
  all_goals simp_all
  all_goals (subst h; rfl)

theorem buildConstructor_symbol {unix : Bool} {child : Entity} {ctor : Constructor}
    {m : String} (hm : child.mangledName? = some m)
    (h : buildConstructor unix child = .ok ctor) :
    ctor.symbol = if unix then m.drop 1 else m := by
  unfold buildConstructor at h
  rw [hm] at h
  repeat' split at h
  all_goals simp_all
  all_goals (subst h; rfl)

theorem buildMethod_symbol {unix : Bool} {cn : String} {child : Entity} {mth : Method}
    {m : String} (hm : child.mangledName? = some m)
    (h : buildMethod unix cn child = .ok mth) :
    mth.symbol = if unix then m.drop 1 else m := by
  unfold buildMethod at h
  rw [hm] at h
  repeat' split at h
  all_goals simp_all
  all_goals (subst h; rfl)

theorem buildStaticMethod_symbol {unix : Bool} {cn : String} {child : Entity}
    {sm : StaticMethod} {m : String} (hm : child.mangledName? = some m)
    (h : buildStaticMethod unix cn child = .ok sm) :
    sm.symbol = if unix then m.drop 1 else m := by
  unfold buildStaticMethod at h
  rw [hm] at h
  repeat' split at h
  all_goals simp_all
  all_goals (subst h; rfl)

theorem buildDestructor_symbol {unix : Bool} {cn : String} {child : Entity}
    {dtor : Destructor} {m : String} {ms : List String}
    (hm : child.mangledNames? = some (m :: ms))
    (h : buildDestructor unix cn child = .ok dtor) :
    dtor.symbol = if unix then m.drop 1 else m := by
  unfold buildDestructor at h
  rw [hm] at h
  simp only [Except.ok.injEq] at h
  subst h
  rfl

theorem processEntity_noninline_fn_symbol (unix : Bool) (rng : Nat → Nat)
    (c : Context) (g : String) (k : Nat) (e : Entity) (items : List Item)
    (g2 : String) (k2 : Nat) (m : String)
    (hkind : e.kind = .FunctionDecl) (hinl : e.inlineFn = false)
    (hm : e.mangledName? = some m)
    (hok : processEntity unix rng c g k e = .ok (items, g2, k2)) :
    ∃ f, items = [.fn f] ∧ f.symbol = if unix then m.drop 1 else m := by
  cases e with
  | mk kind n cm mg mgs rt ar ac inl st ft children =>
    simp only [Entity.kind] at hkind
    simp only [Entity.inlineFn] at hinl
    simp only [Entity.mangledName?] at hm
    subst hkind; subst hinl; subst hm
    simp only [processEntity, Bool.false_eq_true, if_false] at hok
    split at hok
    · cases hok
    · rename_i f heq
      refine ⟨f, ?_, buildFnItem_symbol heq⟩
      cases hok
      rfl

/-- C5: the link symbol of every non-inline free function, constructor,
method and static method is the entity's mangled name with its first
character removed when targeting the unix platform family (`String.drop 1`;
the source slices off the first byte, identical for the ASCII mangled
names), and the raw mangled name unchanged elsewhere; a destructor applies
the same rule to the first of its reported mangled names. -/
theorem link_symbol_platform_stripping :
    (∀ (unix : Bool) (rng : Nat → Nat) (c : Context) (g : String) (k : Nat)
        (e : Entity) (items : List Item) (g2 : String) (k2 : Nat) (m : String),
        e.kind = .FunctionDecl → e.inlineFn = false → e.mangledName? = some m →
        processEntity unix rng c g k e = .ok (items, g2, k2) →
        ∃ f, items = [.fn f] ∧ f.symbol = if unix then m.drop 1 else m) ∧
    (∀ (unix : Bool) (child : Entity) (ctor : Constructor) (m : String),
        child.mangledName? = some m → buildConstructor unix child = .ok ctor →
        ctor.symbol = if unix then m.drop 1 else m) ∧
    (∀ (unix : Bool) (cn : String) (child : Entity) (mth : Method) (m : String),
        child.mangledName? = some m → buildMethod unix cn child = .ok mth →
        mth.symbol = if unix then m.drop 1 else m) ∧
    (∀ (unix : Bool) (cn : String) (child : Entity) (sm : StaticMethod) (m : String),
        child.mangledName? = some m → buildStaticMethod unix cn child = .ok sm →
        sm.symbol = if unix then m.drop 1 else m) ∧
    (∀ (unix : Bool) (cn : String) (child : Entity) (dtor : Destructor)
        (m : String) (ms : List String),
        child.mangledNames? = some (m :: ms) → buildDestructor unix cn child = .ok dtor →
        dtor.symbol = if unix then m.drop 1 else m) := by
  refine ⟨?_, ?_, ?_, ?_, ?_⟩
  · exact fun unix rng c g k e items g2 k2 m h1 h2 h3 h4 =>
      processEntity_noninline_fn_symbol unix rng c g k e items g2 k2 m h1 h2 h3 h4
  · exact fun unix child ctor m hm h => buildConstructor_symbol hm h
  · exact fun unix cn child mth m hm h => buildMethod_symbol hm h
  · exact fun unix cn child sm m hm h => buildStaticMethod_symbol hm h
  · exact fun unix cn child dtor m ms hm h => buildDestructor_symbol hm h

/-- Witness for C5: each conjunct applied at a concrete entity — a
non-inline function on unix (symbol `Z1fi` from `_Z1fi`), a constructor on
unix, a method on a non-unix platform (raw name kept), a static method on
unix, and a destructor on unix taking the first of two mangled names. -/
theorem link_symbol_platform_stripping_witness :
    (∃ f, ([Item.fn { name := "f", symbol := "Z1fi", args := [{ name? := some "x", ty := RustTy.cInt }], ret := RustTy.cInt, comments := [] }] : List Item) = [.fn f]
        ∧ f.symbol = if true then "_Z1fi".drop 1 else "_Z1fi") ∧
    ({ name := "C", symbol := "ZN1CC1Ev", args := [], comments := [] }
        : Constructor).symbol = (if true then "_ZN1CC1Ev".drop 1 else "_ZN1CC1Ev") ∧
    ({ className := "C", name := "m", symbol := "_ZN1C1mEv", args := [], ret := RustTy.cVoid, comments := [] }
        : Method).symbol = (if false then "_ZN1C1mEv".drop 1 else "_ZN1C1mEv") ∧
    ({ className := "C", name := "s", symbol := "ZN1C1sEv", args := [], ret := RustTy.cVoid, comments := [] }
        : StaticMethod).symbol = (if true then "_ZN1C1sEv".drop 1 else "_ZN1C1sEv") ∧
    ({ name := "C", symbol := "ZN1CD1Ev", comments := [] }
        : Destructor).symbol = (if true then "_ZN1CD1Ev".drop 1 else "_ZN1CD1Ev") := by
  refine ⟨?_, ?_, ?_, ?_, ?_⟩
  · exact link_symbol_platform_stripping.1 true (fun _ => 0) { ns := [] } "" 0
      (.mk .FunctionDecl (some "f") none (some "_Z1fi") none
        (some (CType.scalar .Int false "int"))
        (some [{ displayName? := some "x", type? := some (CType.scalar .Int false "int") }])
        none false false none [])
      [Item.fn { name := "f", symbol := "Z1fi", args := [{ name? := some "x", ty := RustTy.cInt }], ret := RustTy.cInt, comments := [] }] "" 0 "_Z1fi" rfl rfl rfl rfl
  · exact link_symbol_platform_stripping.2.1 true
      (.mk .Constructor (some "C") none (some "_ZN1CC1Ev") none none (some [])
        none false false none [])
      { name := "C", symbol := "ZN1CC1Ev", args := [], comments := [] } "_ZN1CC1Ev" rfl rfl
  · exact link_symbol_platform_stripping.2.2.1 false "C"
      (.mk .Method (some "m") none (some "_ZN1C1mEv") none
        (some (CType.scalar .Void false "void")) (some []) none false false none [])
      { className := "C", name := "m", symbol := "_ZN1C1mEv", args := [], ret := RustTy.cVoid, comments := [] } "_ZN1C1mEv" rfl rfl
  · exact link_symbol_platform_stripping.2.2.2.1 true "C"
      (.mk .Method (some "s") none (some "_ZN1C1sEv") none
        (some (CType.scalar .Void false "void")) (some []) none false true none [])
      { className := "C", name := "s", symbol := "ZN1C1sEv", args := [], ret := RustTy.cVoid, comments := [] } "_ZN1C1sEv" rfl rfl
  · exact link_symbol_platform_stripping.2.2.2.2 true "C"
      (.mk .Destructor (some "~C") none none (some ["_ZN1CD1Ev", "_ZN1CD0Ev"])
        none none none false false none [])
      { name := "C", symbol := "ZN1CD1Ev", comments := [] } "_ZN1CD1Ev" ["_ZN1CD0Ev"]
      rfl rfl

/-! ## Display-name fallback (C8: corrected) -/

/-- Counterexample to C8 as stated: the inline-glue path does NOT substitute
a positional name — it `unwrap`s the display name and fails.  The same
inline `int f(int)` entity is processed successfully when its argument
carries a display name, and aborts with a fatal `unwrap` failure when the
display name is absent. -/
theorem glue_path_fails_on_missing_display_name :
    processEntity true (fun _ => 0) { ns := [] } "" 0
        (.mk .FunctionDecl (some "f") none (some "_Z1fi") none
          (some (CType.scalar .Int false "int"))
          (some [{ displayName? := none, type? := some (CType.scalar .Int false "int") }])
          none true false none [])
      = .error .unwrapFailed ∧
    processEntity true (fun _ => 0) { ns := [] } "" 0
        (.mk .FunctionDecl (some "f") none (some "_Z1fi") none
          (some (CType.scalar .Int false "int"))
          (some [{ displayName? := some "x", type? := some (CType.scalar .Int false "int") }])
          none true false none [])
      = .ok ([.fn { name := "f", symbol := "_0",
                    args := [{ name? := some "x", ty := .cInt }],
                    ret := .cInt, comments := [] }],
             "extern \"C\" \x7b int _0(int x) \x7b return f(x); \x7d \x7d", 1) := by
  exact ⟨rfl, rfl⟩

theorem glueArgStrs_missing_name {args : List ArgParm} {a : ArgParm}
    (ha : a ∈ args) (hn : a.displayName? = none) :
    glueArgStrs args = .error .unwrapFailed := by
  induction args with
  | nil => cases ha
  | cons b rest ih =>
    cases hb : b.type? with
    | none => simp [glueArgStrs, hb]
    | some t =>
      rcases List.mem_cons.mp ha with rfl | hmem
      · simp [glueArgStrs, hb, hn]
      · cases hd : b.displayName? with
        | none => simp [glueArgStrs, hb, hd]
        | some d => simp [glueArgStrs, hb, hd, ih hmem]

theorem buildArgs_fallback (i : Nat) (args : List ArgParm)
    (h : ∀ a ∈ args, ∃ t r, a.type? = some t ∧ t.toTokenStream = .ok r) :
    ∃ rs, buildArgs i args = .ok rs ∧ rs.length = args.length ∧
      ∀ (j : Nat) (hj : j < args.length) (hj2 : j < rs.length),
        (rs.get ⟨j, hj2⟩).name? =
          some ((args.get ⟨j, hj⟩).displayName?.getD ("a" ++ toString (i + j))) := by
  induction args generalizing i with
  | nil => exact ⟨[], rfl, rfl, fun j hj _ => absurd hj (by simp)⟩
  | cons a rest ih =>
    obtain ⟨t, r, hat, htr⟩ := h a (List.mem_cons_self a rest)
    obtain ⟨rs, hrs, hlen, hnames⟩ := ih (i + 1) (fun b hb => h b (List.mem_cons_of_mem a hb))
    refine ⟨{ name? := some (a.displayName?.getD ("a" ++ toString i)), ty := r } :: rs,
            ?_, by simpa using hlen, ?_⟩
    · simp [buildArgs, hat, htr, hrs]
    · intro j hj hj2
      cases j with
      | zero => simp
      | succ j2 =>
        have hj' : j2 < rest.length := by simpa using hj
        have hj2' : j2 < rs.length := by simpa using hj2
        have := hnames j2 hj' hj2'
        simpa [Nat.add_assoc, Nat.add_comm 1 j2] using this

/-- C8 amended: in the generated binding parameter lists (free functions,
constructors, methods, static methods — all built through `buildArgs`) an
absent display name falls back to the synthetic positional name
`a0, a1, ...` indexed from zero and never causes a failure; the inline glue
reconstruction instead `unwrap`s every display name and fails fatally
whenever one is absent. -/
theorem binding_args_fallback_glue_requires_names :
    (∀ (i : Nat) (args : List ArgParm),
        (∀ a ∈ args, ∃ t r, a.type? = some t ∧ t.toTokenStream = .ok r) →
        ∃ rs, buildArgs i args = .ok rs ∧ rs.length = args.length ∧
          ∀ (j : Nat) (hj : j < args.length) (hj2 : j < rs.length),
            (rs.get ⟨j, hj2⟩).name? =
              some ((args.get ⟨j, hj⟩).displayName?.getD ("a" ++ toString (i + j)))) ∧
    (∀ (e : Entity) (temp : String) (args : List ArgParm) (a : ArgParm),
        e.args? = some args → a ∈ args → a.displayName? = none →
        inlineGlue e temp = .error .unwrapFailed) := by
  refine ⟨buildArgs_fallback, ?_⟩
  intro e temp args a hargs ha hn
  unfold inlineGlue
  rw [hargs]
  cases hrt : e.resultType? with
  | none => rfl
  | some rt =>
    cases hnm : e.name? with
    | none => rfl
    | some nm => simp [glueArgStrs_missing_name ha hn]

/-- Witness for the amended C8: one nameless `int` argument gets the
positional name `a0` in the binding path, while the glue path fails on the
same argument list. -/
theorem binding_args_fallback_glue_requires_names_witness :
    (∃ rs, buildArgs 0 [{ displayName? := none, type? := some (CType.scalar .Int false "int") }] = .ok rs ∧
        rs.length = [({ displayName? := none, type? := some (CType.scalar .Int false "int") } : ArgParm)].length ∧
        ∀ (j : Nat)
          (hj : j < [({ displayName? := none, type? := some (CType.scalar .Int false "int") } : ArgParm)].length)
          (hj2 : j < rs.length),
          (rs.get ⟨j, hj2⟩).name? =
            some (([({ displayName? := none, type? := some (CType.scalar .Int false "int") } : ArgParm)].get
                ⟨j, hj⟩).displayName?.getD ("a" ++ toString (0 + j)))) ∧
    inlineGlue
        (.mk .FunctionDecl (some "f") none (some "_Z1fi") none
          (some (CType.scalar .Int false "int"))
          (some [{ displayName? := none, type? := some (CType.scalar .Int false "int") }])
          none true false none [])
        "_0"
      = .error .unwrapFailed := by
  constructor
  · exact binding_args_fallback_glue_requires_names.1 0
      [{ displayName? := none, type? := some (CType.scalar .Int false "int") }]
      (fun a ha => ⟨CType.scalar .Int false "int", .cInt, by
        rcases List.mem_singleton.mp ha with rfl; exact ⟨rfl, rfl⟩⟩)
  · exact binding_args_fallback_glue_requires_names.2
      (.mk .FunctionDecl (some "f") none (some "_Z1fi") none
        (some (CType.scalar .Int false "int"))
        (some [{ displayName? := none, type? := some (CType.scalar .Int false "int") }])
        none true false none [])
      "_0"
      [{ displayName? := none, type? := some (CType.scalar .Int false "int") }]
      { displayName? := none, type? := some (CType.scalar .Int false "int") }
      rfl (List.mem_singleton.mpr rfl) rfl

/-! ## Class children (C3, C4) -/

theorem processClassChild_spec {unix : Bool} {cn : String} {s s3 : ItemStruct}
    {ch : Entity} (h : processClassChild unix cn s ch = .ok s3) :
    (ch.kind = .FieldDecl →
        ∃ f, buildField ch = .ok f ∧ s3 = { s with fields := s.fields ++ [f] }) ∧
    (ch.kind = .Constructor →
        ∃ ctor, buildConstructor unix ch = .ok ctor ∧ s3 = { s with constructor := some ctor }) ∧
    (ch.kind = .Destructor →
        ∃ d, buildDestructor unix cn ch = .ok d ∧ s3 = { s with destructor := some d }) ∧
    (ch.kind = .Method →
        (∃ mth, s3 = { s with methods := s.methods ++ [mth] }) ∨
        (∃ sm, s3 = { s with staticMethods := s.staticMethods ++ [sm] })) ∧
    (ch.kind ≠ .FieldDecl → ch.kind ≠ .Constructor → ch.kind ≠ .Destructor →
        ch.kind ≠ .Method → s3 = s) := by
  refine ⟨?_, ?_, ?_, ?_, ?_⟩
  · intro hk
    simp only [processClassChild, hk] at h
    split at h
    · cases h
    · rename_i f heq
      exact ⟨f, heq, by cases h; rfl⟩
  · intro hk
    simp only [processClassChild, hk] at h
    split at h
    · cases h
    · rename_i ctor heq
      exact ⟨ctor, heq, by cases h; rfl⟩
  · intro hk
    simp only [processClassChild, hk] at h
    split at h
    · cases h
    · rename_i d heq
      exact ⟨d, heq, by cases h; rfl⟩
  · intro hk
    simp only [processClassChild, hk] at h
    split at h
    · split at h
      · cases h
      · rename_i sm heq
        exact .inr ⟨sm, by cases h; rfl⟩
    · split at h
      · cases h
      · rename_i mth heq
        exact .inl ⟨mth, by cases h; rfl⟩
  · intro h1 h2 h3 h4
    cases hck : ch.kind with
    | FieldDecl => exact absurd hck h1
    | Constructor => exact absurd hck h2
    | Destructor => exact absurd hck h3
    | Method => exact absurd hck h4
    | TranslationUnit => simp only [processClassChild, hck] at h; cases h; rfl
    | Namespace => simp only [processClassChild, hck] at h; cases h; rfl
    | FunctionDecl => simp only [processClassChild, hck] at h; cases h; rfl
    | ClassDecl => simp only [processClassChild, hck] at h; cases h; rfl
    | Other => simp only [processClassChild, hck] at h; cases h; rfl

theorem processClassChildren_fields {unix : Bool} {cn : String} :
    ∀ (l : List Entity) (s s2 : ItemStruct),
      processClassChildren unix cn s l = .ok s2 →
      ∃ fs, mapExcept buildField (l.filter (fun ch => ch.kind == EntityKind.FieldDecl))
              = .ok fs ∧
        s2.fields = s.fields ++ fs := by
  intro l
  induction l with
  | nil =>
    intro s s2 h
    simp only [processClassChildren, Except.ok.injEq] at h
    subst h
    exact ⟨[], rfl, by simp⟩
  | cons ch rest ih =>
    intro s s2 h
    unfold processClassChildren at h
    split at h
    · cases h
    · rename_i s3 heq
      obtain ⟨hfd, hctor, hdtor, hmth, hother⟩ := processClassChild_spec heq
      obtain ⟨fs, hmap, hfields⟩ := ih s3 s2 h
      cases hck : ch.kind with
      | FieldDecl =>
        obtain ⟨f, hbf, hs3⟩ := hfd hck
        subst hs3
        refine ⟨f :: fs, ?_, ?_⟩
        · simp [List.filter_cons, hck, mapExcept, hbf, hmap]
        · simp only [] at hfields
          rw [hfields]
          simp
      | Constructor =>
        obtain ⟨ctor, _, hs3⟩ := hctor hck
        subst hs3
        exact ⟨fs, by simp [List.filter_cons, hck, hmap], by simpa using hfields⟩
      | Destructor =>
        obtain ⟨d, _, hs3⟩ := hdtor hck
        subst hs3
        exact ⟨fs, by simp [List.filter_cons, hck, hmap], by simpa using hfields⟩
      | Method =>
        refine ⟨fs, by simp [List.filter_cons, hck, hmap], ?_⟩
        rcases hmth hck with ⟨mth, hs3⟩ | ⟨sm, hs3⟩ <;> subst hs3 <;> simpa using hfields
      | TranslationUnit =>
        have hs3 : s3 = s := hother (by simp [hck]) (by simp [hck]) (by simp [hck]) (by simp [hck])
        subst hs3
        exact ⟨fs, by simp [List.filter_cons, hck, hmap], hfields⟩
      | Namespace =>
        have hs3 : s3 = s := hother (by simp [hck]) (by simp [hck]) (by simp [hck]) (by simp [hck])
        subst hs3
        exact ⟨fs, by simp [List.filter_cons, hck, hmap], hfields⟩
      | FunctionDecl =>
        have hs3 : s3 = s := hother (by simp [hck]) (by simp [hck]) (by simp [hck]) (by simp [hck])
        subst hs3
        exact ⟨fs, by simp [List.filter_cons, hck, hmap], hfields⟩
      | ClassDecl =>
        have hs3 : s3 = s := hother (by simp [hck]) (by simp [hck]) (by simp [hck]) (by simp [hck])
        subst hs3
        exact ⟨fs, by simp [List.filter_cons, hck, hmap], hfields⟩
      | Other =>
        have hs3 : s3 = s := hother (by simp [hck]) (by simp [hck]) (by simp [hck]) (by simp [hck])
        subst hs3
        exact ⟨fs, by simp [List.filter_cons, hck, hmap], hfields⟩

theorem processClassChildren_constructor {unix : Bool} {cn : String} :
    ∀ (l : List Entity) (s s2 : ItemStruct),
      processClassChildren unix cn s l = .ok s2 →
      match (l.filter (fun ch => ch.kind == EntityKind.Constructor)).getLast? with
      | none => s2.constructor = s.constructor
      | some clast =>
          ∃ ctor, buildConstructor unix clast = .ok ctor ∧ s2.constructor = some ctor := by
  intro l
  induction l with
  | nil =>
    intro s s2 h
    simp only [processClassChildren, Except.ok.injEq] at h
    subst h
    simp
  | cons ch rest ih =>
    intro s s2 h
    unfold processClassChildren at h
    split at h
    · cases h
    · rename_i s3 heq
      obtain ⟨hfd, hctor, hdtor, hmth, hother⟩ := processClassChild_spec heq
      have IH := ih s3 s2 h
      cases hck : ch.kind with
      | Constructor =>
        obtain ⟨ctor, hbc, hs3⟩ := hctor hck
        subst hs3
        simp only [List.filter_cons, hck, beq_self_eq_true, if_true]
        cases hrl : (rest.filter (fun x => x.kind == EntityKind.Constructor)).getLast? with
        | none =>
          have hemp := List.getLast?_eq_none_iff.mp hrl
          simp only [hrl] at IH
          rw [hemp]
          simp only [List.getLast?_singleton]
          exact ⟨ctor, hbc, by rw [IH]⟩
        | some c2 =>
          simp only [hrl] at IH
          cases hfil : rest.filter (fun x => x.kind == EntityKind.Constructor) with
          | nil => rw [hfil] at hrl; cases hrl
          | cons b t =>
            rw [hfil] at hrl
            rw [List.getLast?_cons_cons, hrl]
            simpa using IH
      | FieldDecl =>
        obtain ⟨f, _, hs3⟩ := hfd hck
        subst hs3
        simp only [List.filter_cons, hck]
        rw [show ((EntityKind.FieldDecl == EntityKind.Constructor) = false) from rfl]
        simp only [Bool.false_eq_true, if_false]
        cases hrl : (rest.filter (fun x => x.kind == EntityKind.Constructor)).getLast? <;>
          simp only [hrl] at IH <;> simpa using IH
      | Destructor =>
        obtain ⟨d, _, hs3⟩ := hdtor hck
        subst hs3
        simp only [List.filter_cons, hck]
        rw [show ((EntityKind.Destructor == EntityKind.Constructor) = false) from rfl]
        simp only [Bool.false_eq_true, if_false]
        cases hrl : (rest.filter (fun x => x.kind == EntityKind.Constructor)).getLast? <;>
          simp only [hrl] at IH <;> simpa using IH
      | Method =>
        simp only [List.filter_cons, hck]
        rw [show ((EntityKind.Method == EntityKind.Constructor) = false) from rfl]
        simp only [Bool.false_eq_true, if_false]
        rcases hmth hck with ⟨mth, hs3⟩ | ⟨sm, hs3⟩ <;> subst hs3 <;>
          (cases hrl : (rest.filter (fun x => x.kind == EntityKind.Constructor)).getLast? <;>
            simp only [hrl] at IH <;> simpa using IH)
      | TranslationUnit =>
        have hs3 : s3 = s := hother (by simp [hck]) (by simp [hck]) (by simp [hck]) (by simp [hck])
        subst hs3
        simp only [List.filter_cons, hck]
        rw [show ((EntityKind.TranslationUnit == EntityKind.Constructor) = false) from rfl]
        simp only [Bool.false_eq_true, if_false]
        exact IH
      | Namespace =>
        have hs3 : s3 = s := hother (by simp [hck]) (by simp [hck]) (by simp [hck]) (by simp [hck])
        subst hs3
        simp only [List.filter_cons, hck]
        rw [show ((EntityKind.Namespace == EntityKind.Constructor) = false) from rfl]
        simp only [Bool.false_eq_true, if_false]
        exact IH
      | FunctionDecl =>
        have hs3 : s3 = s := hother (by simp [hck]) (by simp [hck]) (by simp [hck]) (by simp [hck])
        subst hs3
        simp only [List.filter_cons, hck]
        rw [show ((EntityKind.FunctionDecl == EntityKind.Constructor) = false) from rfl]
        simp only [Bool.false_eq_true, if_false]
        exact IH
      | ClassDecl =>
        have hs3 : s3 = s := hother (by simp [hck]) (by simp [hck]) (by simp [hck]) (by simp [hck])
        subst hs3
        simp only [List.filter_cons, hck]
        rw [show ((EntityKind.ClassDecl == EntityKind.Constructor) = false) from rfl]
        simp only [Bool.false_eq_true, if_false]
        exact IH
      | Other =>
        have hs3 : s3 = s := hother (by simp [hck]) (by simp [hck]) (by simp [hck]) (by simp [hck])
        subst hs3
        simp only [List.filter_cons, hck]
        rw [show ((EntityKind.Other == EntityKind.Constructor) = false) from rfl]
        simp only [Bool.false_eq_true, if_false]
        exact IH

theorem buildField_ok {ch : Entity} {f : Field} (h : buildField ch = .ok f) :
    ch.name? = some f.name ∧ (f.isPub = true ↔ ch.accessibility? = some .Public) := by
  unfold buildField at h
  split at h
  · cases h
  · rename_i acc hacc
    split at h
    · cases h
    · rename_i nm hnm
      split at h
      · cases h
      · rename_i t ht
        split at h
        · cases h
        · rename_i ty hty
          cases h
          refine ⟨hnm, ?_⟩
          rw [hacc]
          simp

theorem mapExcept_forall2 {α β : Type} (f : α → Except Err β) :
    ∀ (l : List α) (rs : List β), mapExcept f l = .ok rs →
      List.Forall₂ (fun a b => f a = .ok b) l rs := by
  intro l
  induction l with
  | nil =>
    intro rs h
    simp only [mapExcept, Except.ok.injEq] at h
    subst h
    exact List.Forall₂.nil
  | cons a rest ih =>
    intro rs h
    unfold mapExcept at h
    split at h
    · cases h
    · rename_i b heq
      split at h
      · cases h
      · rename_i bs heq2
        cases h
        exact List.Forall₂.cons heq (ih bs heq2)

/-- C3: a processed class yields one `Struct` item whose field list is
exactly the fields built from its `FieldDecl` children, in declaration
order, and each field's `pub` marker is set exactly when the child's
accessibility is public. -/
theorem struct_fields_in_declaration_order_with_visibility
    (unix : Bool) (rng : Nat → Nat) (c : Context) (g : String) (k : Nat)
    (e : Entity) (items : List Item) (g2 : String) (k2 : Nat)
    (hkind : e.kind = .ClassDecl)
    (hok : processEntity unix rng c g k e = .ok (items, g2, k2)) :
    ∃ s fs, items = [.strukt s]
      ∧ mapExcept buildField
          (e.children.filter (fun ch => ch.kind == EntityKind.FieldDecl)) = .ok fs
      ∧ s.fields = fs
      ∧ List.Forall₂
          (fun ch f => ch.name? = some f.name
            ∧ (f.isPub = true ↔ ch.accessibility? = some .Public))
          (e.children.filter (fun ch => ch.kind == EntityKind.FieldDecl)) fs := by
  cases e with
  | mk kind n cm mg mgs rt ar ac inl st ft children =>
    simp only [Entity.kind] at hkind
    subst hkind
    cases n with
    | none => simp [processEntity] at hok
    | some nm =>
      simp only [processEntity] at hok
      split at hok
      · cases hok
      · rename_i s hfold
        cases hok
        obtain ⟨fs, hmap, hfields⟩ := processClassChildren_fields children _ s hfold
        refine ⟨s, fs, rfl, ?_, ?_, ?_⟩
        · simpa [Entity.children] using hmap
        · simpa using hfields
        · have h2 := mapExcept_forall2 buildField _ fs hmap
          simp only [Entity.children]
          exact h2.imp (fun a b hab => buildField_ok hab)

/-- Witness for C3: class `P` declaring `public int a`, a method, then
`private float b`; the struct lists exactly `[a, b]` in that order with
`a` public and `b` not. -/
theorem struct_fields_in_declaration_order_with_visibility_witness :
    ∃ s fs,
      ([Item.strukt { name := "P", fields := [{ isPub := true, name := "a", ty := RustTy.cInt }, { isPub := false, name := "b", ty := RustTy.cFloat }], constructor := none, destructor := none, methods := [{ className := "P", name := "m", symbol := "ZN1P1mEv", args := [], ret := RustTy.cVoid, comments := [] }], staticMethods := [], comments := [] }] : List Item)
        = [.strukt s]
      ∧ mapExcept buildField
          ((Entity.mk .ClassDecl (some "P") none none none none none none false false none
            [.mk .FieldDecl (some "a") none none none none none (some .Public) false false (some (CType.scalar .Int false "int")) [],
             .mk .Method (some "m") none (some "_ZN1P1mEv") none (some (CType.scalar .Void false "void")) (some []) none false false none [],
             .mk .FieldDecl (some "b") none none none none none (some .Private) false false (some (CType.scalar .Float false "float")) []]).children.filter
            (fun ch => ch.kind == EntityKind.FieldDecl)) = .ok fs
      ∧ s.fields = fs
      ∧ List.Forall₂
          (fun ch f => ch.name? = some f.name
            ∧ (f.isPub = true ↔ ch.accessibility? = some .Public))
          ((Entity.mk .ClassDecl (some "P") none none none none none none false false none
            [.mk .FieldDecl (some "a") none none none none none (some .Public) false false (some (CType.scalar .Int false "int")) [],
             .mk .Method (some "m") none (some "_ZN1P1mEv") none (some (CType.scalar .Void false "void")) (some []) none false false none [],
             .mk .FieldDecl (some "b") none none none none none (some .Private) false false (some (CType.scalar .Float false "float")) []]).children.filter
            (fun ch => ch.kind == EntityKind.FieldDecl)) fs := by
  exact struct_fields_in_declaration_order_with_visibility true (fun _ => 0)
    { ns := [] } "" 0
    (.mk .ClassDecl (some "P") none none none none none none false false none
      [.mk .FieldDecl (some "a") none none none none none (some .Public) false false (some (CType.scalar .Int false "int")) [],
       .mk .Method (some "m") none (some "_ZN1P1mEv") none (some (CType.scalar .Void false "void")) (some []) none false false none [],
       .mk .FieldDecl (some "b") none none none none none (some .Private) false false (some (CType.scalar .Float false "float")) []])
    [Item.strukt { name := "P", fields := [{ isPub := true, name := "a", ty := RustTy.cInt }, { isPub := false, name := "b", ty := RustTy.cFloat }], constructor := none, destructor := none, methods := [{ className := "P", name := "m", symbol := "ZN1P1mEv", args := [], ret := RustTy.cVoid, comments := [] }], staticMethods := [], comments := [] }]
    "" 0 rfl rfl

/-- C4: when a class declares more than one constructor, the resulting
`Struct` item's optional constructor slot holds exactly one item — the one
built from the last-declared constructor child (later constructors overwrite
earlier ones). -/
theorem last_constructor_wins
    (unix : Bool) (rng : Nat → Nat) (c : Context) (g : String) (k : Nat)
    (e : Entity) (items : List Item) (g2 : String) (k2 : Nat) (clast : Entity)
    (hkind : e.kind = .ClassDecl)
    (hok : processEntity unix rng c g k e = .ok (items, g2, k2))
    (_hmany : 1 < (e.children.filter (fun ch => ch.kind == EntityKind.Constructor)).length)
    (hlast : (e.children.filter (fun ch => ch.kind == EntityKind.Constructor)).getLast?
        = some clast) :
    ∃ s ctor, items = [.strukt s] ∧ buildConstructor unix clast = .ok ctor ∧
      s.constructor = some ctor := by
  cases e with
  | mk kind n cm mg mgs rt ar ac inl st ft children =>
    simp only [Entity.kind] at hkind
    subst hkind
    simp only [Entity.children] at hlast
    cases n with
    | none => simp [processEntity] at hok
    | some nm =>
      simp only [processEntity] at hok
      split at hok
      · cases hok
      · rename_i s hfold
        cases hok
        have hc := processClassChildren_constructor children _ s hfold
        rw [hlast] at hc
        obtain ⟨ctor, hbc, hcon⟩ := hc
        exact ⟨s, ctor, rfl, hbc, hcon⟩

/-- Witness for C4: class `P` declaring a zero-argument constructor and then
a one-argument constructor; the struct keeps only the latter. -/
theorem last_constructor_wins_witness :
    ∃ s ctor,
      ([Item.strukt { name := "P", fields := [], constructor := some { name := "P", symbol := "ZN1PC1Ei", args := [{ name? := some "v", ty := RustTy.cInt }], comments := [] }, destructor := none, methods := [], staticMethods := [], comments := [] }] : List Item)
        = [.strukt s]
      ∧ buildConstructor true
          (.mk .Constructor (some "P") none (some "_ZN1PC1Ei") none none
            (some [{ displayName? := some "v", type? := some (CType.scalar .Int false "int") }])
            none false false none [])
          = .ok ctor
      ∧ s.constructor = some ctor := by
  exact last_constructor_wins true (fun _ => 0) { ns := [] } "" 0
    (.mk .ClassDecl (some "P") none none none none none none false false none
      [.mk .Constructor (some "P") none (some "_ZN1PC1Ev") none none (some []) none false false none [],
       .mk .Constructor (some "P") none (some "_ZN1PC1Ei") none none (some [{ displayName? := some "v", type? := some (CType.scalar .Int false "int") }]) none false false none []])
    [Item.strukt { name := "P", fields := [], constructor := some { name := "P", symbol := "ZN1PC1Ei", args := [{ name? := some "v", ty := RustTy.cInt }], comments := [] }, destructor := none, methods := [], staticMethods := [], comments := [] }]
    "" 0
    (.mk .Constructor (some "P") none (some "_ZN1PC1Ei") none none
      (some [{ displayName? := some "v", type? := some (CType.scalar .Int false "int") }])
      none false false none [])
    rfl rfl (by decide) rfl

end Blackbird
